import Mathlib

/-!
Shallow embedding of the UB-WaveX playback queue and state engine
(`src/ui/player.js`, class `AudioPlayer`), with proofs of the spec's
claims about it.

Conventions of the embedding:
* JS numbers used as queue indices are modelled as `Int` (the engine
  stores `-1` as the "empty" index); elapsed audio time is modelled as `ℚ`.
* Possibly-absent JS object fields are modelled as `Option`;
  JS truthiness of a string field is `jsTruthyStr`.
* Out-of-range JS array reads yield `undefined`; the sentinel value
  `undefinedTrack` stands for that result (no claim depends on it).
* Nondeterminism of `Math.random` is modelled by a draw function
  `rand : Nat → Nat`; the draw at loop counter `i` is `rand i % (i+1)`,
  which ranges over exactly the interval `[0, i]` that
  `Math.floor(Math.random() * (i + 1))` produces.
* The asynchronous stream resolver (`get-stream-url` IPC call) is an
  oracle `Resolver`; `none` models a failed resolution.
* `Date.now()` timestamps are an increasing counter starting at a
  parameter `now`.
-/

namespace WaveX

/-- A track reference as stored in the player's queues. -/
structure Track where
  youtube_id : Option String
  title : Option String
  artist : Option String
  duration : Option Nat
  downloaded : Bool
  file_path : Option String
deriving DecidableEq, Repr

/-- JS truthiness of a possibly-absent string field
(`undefined`, `null` and `""` are falsy). -/
def jsTruthyStr : Option String → Bool
  | none => false
  | some s => s ≠ ""

/-- Sentinel for the JS value `undefined` produced by an out-of-range
array read. -/
def undefinedTrack : Track :=
  { youtube_id := none, title := none, artist := none, duration := none,
    downloaded := false, file_path := none }

/-- JS array indexing `l[i]` with a number index: out-of-range or
negative reads give `undefined`. -/
def jsGetTrack (l : List Track) (i : Int) : Track :=
  if 0 ≤ i then (l[i.toNat]?).getD undefinedTrack else undefinedTrack

/-- JS `Array.prototype.slice(start)` with a single argument
(negative `start` counts from the end). -/
def jsSlice (l : List α) (start : Int) : List α :=
  if 0 ≤ start then l.drop start.toNat else l.drop (l.length - start.natAbs)

/-- JS `Array.prototype.findIndex`: index of the first match, `-1` if none. -/
def jsFindIndex (p : α → Bool) : List α → Int
  | [] => -1
  | a :: l =>
    if p a then 0
    else if jsFindIndex p l = -1 then -1 else jsFindIndex p l + 1

/-- JS `x || 0` for a number `x` (falsy numbers collapse to `0`). -/
def jsOrZeroInt (x : Int) : Int := if x = 0 then 0 else x

/-- JS `x || 0` for the persisted playback position. -/
def jsOrZeroRat (x : ℚ) : ℚ := if x = 0 then 0 else x

/-- `track.duration || 0` as used by the preparation cache. -/
def jsDur (t : Track) : Nat := t.duration.getD 0

/-- An entry of the preparation (preload) cache:
`{ url, track, timestamp, duration }`. -/
structure CacheEntry where
  url : String
  track : Track
  timestamp : Nat
  duration : Nat
deriving DecidableEq, Repr

/-- `this.preloadCache`: a JS `Map` keyed by `track.youtube_id`,
modelled as an association list in insertion order. -/
abbrev Cache := List (Option String × CacheEntry)

/-- `this.playbackContext`. -/
structure PlaybackContext where
  type : Option String
  id : Option String
  name : Option String
  tracks : List Track
  shuffle : Bool
deriving DecidableEq, Repr

/-- The queue/state fields of the `AudioPlayer` instance that the
engine's operations read or write. -/
structure PlayerState where
  currentTrack : Option Track
  savedRestoreTime : ℚ
  temporaryQueue : List Track
  contextQueue : List Track
  contextQueueIndex : Int
  queue : List Track
  queueIndex : Int
  preloadCache : Cache
  isPlaying : Bool
  playbackContext : PlaybackContext
  shuffledIndices : List Int
  originalQueue : List Track
  audioSrc : Option String
  audioCurrentTime : ℚ
deriving DecidableEq

/-- The state set up by the `AudioPlayer` constructor. -/
def initState : PlayerState :=
  { currentTrack := none, savedRestoreTime := 0, temporaryQueue := [],
    contextQueue := [], contextQueueIndex := -1, queue := [], queueIndex := -1,
    preloadCache := [], isPlaying := false,
    playbackContext :=
      { type := none, id := none, name := none, tracks := [], shuffle := false },
    shuffledIndices := [], originalQueue := [], audioSrc := none,
    audioCurrentTime := 0 }

/-- Result of a successful `get-stream-url` resolution. -/
structure ResolveResult where
  url : String
  rTitle : Option String
  rArtist : Option String

/-- The external stream resolver, keyed by `youtube_id`; `none` is a
failed resolution. -/
abbrev Resolver := Option String → Option ResolveResult

/-- `this.maxPreloadTracks`. -/
def maxPreloadTracks : Nat := 5

/-- `this.maxPreloadDuration` (30 minutes in seconds). -/
def maxPreloadDuration : Nat := 1800

/-- `getContextDisplayName(type)`. -/
def getContextDisplayName (ctype : Option String) : Option String :=
  match ctype with
  | some "liked" => some "Liked Songs"
  | some "downloads" => some "Downloads"
  | _ => none

/-- `this.preloadCache.has(k)`. -/
def cacheHas (c : Cache) (k : Option String) : Bool :=
  (c : List (Option String × CacheEntry)).any (fun p => p.1 = k)

/-- `this.preloadCache.get(k)`. -/
def cacheGet (c : Cache) (k : Option String) : Option CacheEntry :=
  ((c : List (Option String × CacheEntry)).find? (fun p => p.1 = k)).map (·.2)

/-- JS `Map.set(k, v)`: replaces in place, or appends a new entry. -/
def cacheSet (c : Cache) (k : Option String) (v : CacheEntry) : Cache :=
  if cacheHas c k then
    (c : List (Option String × CacheEntry)).map (fun p => if p.1 = k then (k, v) else p)
  else (c : List (Option String × CacheEntry)) ++ [(k, v)]

/-- Length of the cache, as a `List`. -/
def cacheLength (c : Cache) : Nat :=
  (c : List (Option String × CacheEntry)).length

/-- `entries.reduce((sum, [, data]) => sum + (data.duration || 0), 0)`. -/
def totalCachedDuration (c : Cache) : Int :=
  ((c : List (Option String × CacheEntry)).map (fun p => (p.2.duration : Int))).sum

/-- The metadata update applied by `loadAndPlayTrack` on a successful
resolution (`if (result.data.title) track.title = result.data.title`, same
for the artist). -/
def applyMeta (t : Track) (r : ResolveResult) : Track :=
  { t with
    title := if jsTruthyStr r.rTitle then r.rTitle else t.title,
    artist := if jsTruthyStr r.rArtist then r.rArtist else t.artist }

/-- `loadAndPlayTrack(track)`: sets the current track, stages a source
(local file, cached stream, or fresh resolution) and starts playback;
a failed resolution is caught and leaves the queue position parked. -/
def loadAndPlayTrack (resolve : Resolver) (t : Track) (s : PlayerState) : PlayerState :=
  let s1 := { s with currentTrack := some t }
  if jsTruthyStr t.file_path && t.downloaded then
    { s1 with audioSrc := t.file_path, audioCurrentTime := 0, isPlaying := true }
  else if cacheHas s1.preloadCache t.youtube_id then
    { s1 with audioSrc := (cacheGet s1.preloadCache t.youtube_id).map (·.url),
              audioCurrentTime := 0, isPlaying := true }
  else
    match resolve t.youtube_id with
    | some r =>
      { s1 with currentTrack := some (applyMeta t r), audioSrc := some r.url,
                audioCurrentTime := 0, isPlaying := true }
    | none => s1

/-- `rebuildCombinedQueue()`: current track + temporary queue + context
remainder, nulls filtered out. -/
def rebuildCombinedQueue (s : PlayerState) : PlayerState :=
  { s with
    queue :=
      (match s.currentTrack with | some t => [t] | none => []) ++
        s.temporaryQueue ++ jsSlice s.contextQueue (s.contextQueueIndex + 1),
    queueIndex := 0 }

/-- The error kind of the invalid-track rejection in `addToQueue`. -/
inductive QueueError where
  | invalidTrack
deriving DecidableEq, Repr

/-- `addToQueue(track, playNext)`: rejects a track without identity,
else front-inserts (`playNext`) or appends to the temporary queue and
rebuilds the combined queue. The second component reports the
synchronous rejection. -/
def addToQueue (track : Option Track) (playNextFlag : Bool) (s : PlayerState) :
    PlayerState × Option QueueError :=
  match track with
  | none => (s, some QueueError.invalidTrack)
  | some t =>
    if !jsTruthyStr t.youtube_id then (s, some QueueError.invalidTrack)
    else
      let s1 :=
        if playNextFlag then { s with temporaryQueue := t :: s.temporaryQueue }
        else { s with temporaryQueue := s.temporaryQueue ++ [t] }
      (rebuildCombinedQueue s1, none)

/-- One swap `[arr[i], arr[j]] = [arr[j], arr[i]]` of the Fisher-Yates
loop (both indices are in range whenever the loop performs it). -/
def listSwap (l : List α) (i j : Nat) : List α :=
  match l[i]?, l[j]? with
  | some a, some b => (l.set i b).set j a
  | _, _ => l

/-- The Fisher-Yates loop of `enableShuffle`, counting `i` down; the
draw at counter `i` is `rand i % (i+1) ∈ [0, i]`. -/
def fyGo (rand : Nat → Nat) : Nat → List α → List α
  | 0, l => l
  | i + 1, l => fyGo rand i (listSwap l (i + 1) (rand (i + 1) % (i + 2)))

/-- The Fisher-Yates shuffle of `enableShuffle`, from `i = length - 1`
down to `i = 1`. -/
def fisherYates (rand : Nat → Nat) (l : List α) : List α :=
  fyGo rand (l.length - 1) l

/-- The index list `tracks.map((_, i) => i).filter(i => i !== currentIndex)`
built by `enableShuffle`. -/
def shuffleIndices (tracks : List Track) (pin : Int) : List Nat :=
  (List.range tracks.length).filter (fun i => (i : Int) ≠ pin)

/-- `enableShuffle(tracks, currentIndex)` (continued): pins
`tracks[currentIndex]` at position 0 and Fisher-Yates-shuffles the
remaining indices. -/
def enableShuffle (rand : Nat → Nat) (tracks : List Track) (pin : Int)
    (s : PlayerState) : PlayerState :=
  let shuffledIdx : List Int :=
    pin :: (fisherYates rand (shuffleIndices tracks pin)).map (fun (i : Nat) => (i : Int))
  let newQueue := shuffledIdx.map (fun i => jsGetTrack tracks i)
  { s with originalQueue := tracks,
           shuffledIndices := shuffledIdx,
           contextQueue := newQueue,
           contextQueueIndex := 0,
           playbackContext := { s.playbackContext with shuffle := true },
           queue := newQueue,
           queueIndex := 0 }

/-- `disableShuffle()`: restores `originalQueue` and relocates the
current track in it by `youtube_id` (index 0 if absent). -/
def disableShuffle (s : PlayerState) : PlayerState :=
  match s.currentTrack with
  | some cur =>
    if s.originalQueue.length > 0 then
      let fi := jsFindIndex (fun t => t.youtube_id == cur.youtube_id) s.originalQueue
      let newIdx : Int := if 0 ≤ fi then fi else 0
      { s with contextQueue := s.originalQueue,
               contextQueueIndex := newIdx,
               playbackContext := { s.playbackContext with shuffle := false },
               shuffledIndices := [],
               originalQueue := [],
               queue := s.originalQueue,
               queueIndex := newIdx }
    else s
  | none => s

/-- `toggleShuffle()`: flips the shuffle mode when possible and returns
the resulting shuffle flag. -/
def toggleShuffle (rand : Nat → Nat) (s : PlayerState) : PlayerState × Bool :=
  let s1 :=
    if s.playbackContext.shuffle then disableShuffle s
    else if s.playbackContext.tracks.length > 0 then
      enableShuffle rand s.playbackContext.tracks s.queueIndex s
    else s
  (s1, s1.playbackContext.shuffle)

/-- The eviction loop of `cleanupPreloadCache`:
`while (entries.length > max || totalDuration > maxDuration)` shift the
oldest entry; returns the evicted keys. The loop never reaches an empty
list because `total` is always the aggregate duration of the remaining
entries (hence `≤ 1800` once the list is empty). -/
def evictGo : List (Option String × CacheEntry) → Int → List (Option String)
  | [], _ => []
  | (k, d) :: rest, total =>
    if rest.length + 1 > maxPreloadTracks ∨ total > (maxPreloadDuration : Int) then
      k :: evictGo rest (total - (d.duration : Int))
    else []

/-- `cleanupPreloadCache()`: when (and only when) the entry count
exceeds `maxPreloadTracks`, evicts oldest-by-timestamp entries while
either bound is exceeded. -/
def cleanupPreloadCache (cache : Cache) : Cache :=
  if cacheLength cache > maxPreloadTracks then
    let sorted := cache.mergeSort (fun a b => a.2.timestamp ≤ b.2.timestamp)
    let evicted := evictGo sorted (totalCachedDuration cache)
    cache.filter (fun p => !(evicted.contains p.1))
  else cache

/-- The selection loop of `preloadUpcomingTracks`: walks
`queue[queueIndex + i]` for `i = 1..5`, breaking once the running
duration would exceed the bound and skipping cached or downloaded
tracks. `fuel` counts the remaining iterations. -/
def preloadSelectGo (queue : List Track) (cache : Cache) (qIdx : Int) :
    Nat → Nat → Nat → List Track → List Track
  | 0, _, _, acc => acc.reverse
  | fuel + 1, i, total, acc =>
    if qIdx + (i : Int) < (queue.length : Int) then
      let t := jsGetTrack queue (qIdx + (i : Int))
      if total + jsDur t > maxPreloadDuration then acc.reverse
      else if cacheHas cache t.youtube_id || t.downloaded then
        preloadSelectGo queue cache qIdx fuel (i + 1) total acc
      else preloadSelectGo queue cache qIdx fuel (i + 1) (total + jsDur t) (t :: acc)
    else acc.reverse

/-- The tracks chosen by one `preloadUpcomingTracks` pass. -/
def preloadSelect (queue : List Track) (qIdx : Int) (cache : Cache) : List Track :=
  preloadSelectGo queue cache qIdx maxPreloadTracks 1 0 []

/-- The insertion half of `preloadUpcomingTracks`: resolve each chosen
track, cache a successful result, and run a cleanup pass after every
insertion. -/
def preloadInsertAll (resolve : Resolver) : Nat → List Track → Cache → Cache
  | _, [], c => c
  | now, t :: ts, c =>
    match resolve t.youtube_id with
    | some r =>
      preloadInsertAll resolve (now + 1) ts
        (cleanupPreloadCache
          (cacheSet c t.youtube_id
            { url := r.url, track := t, timestamp := now, duration := jsDur t }))
    | none => preloadInsertAll resolve (now + 1) ts c

/-- `preloadUpcomingTracks()`: only the preparation cache changes. -/
def preloadUpcomingTracks (resolve : Resolver) (now : Nat) (s : PlayerState) :
    PlayerState :=
  { s with preloadCache :=
      (preloadInsertAll resolve now
        (preloadSelect s.queue s.queueIndex s.preloadCache) s.preloadCache) }

/-- `playNext()`: pop the temporary queue first; else advance the
context index when not at the end; else do nothing. The second
component is the track handed to `loadAndPlayTrack` (none for the
no-op). -/
def playNext (resolve : Resolver) (now : Nat) (s : PlayerState) :
    PlayerState × Option Track :=
  match s.temporaryQueue with
  | t :: rest =>
    let s1 := rebuildCombinedQueue { s with temporaryQueue := rest }
    let s2 := loadAndPlayTrack resolve t s1
    (preloadUpcomingTracks resolve now s2, some t)
  | [] =>
    if s.contextQueueIndex < (s.contextQueue.length : Int) - 1 then
      let newIdx := s.contextQueueIndex + 1
      let t := jsGetTrack s.contextQueue newIdx
      let s1 := { s with contextQueueIndex := newIdx, queueIndex := s.queueIndex + 1 }
      let s2 := loadAndPlayTrack resolve t s1
      (preloadUpcomingTracks resolve now s2, some t)
    else (s, none)

/-- `playPrevious()`: restart the current track when more than 3
seconds have elapsed; else step back inside the context queue when
possible; else restart. The temporary queue is never touched. -/
def playPrevious (resolve : Resolver) (s : PlayerState) : PlayerState × Option Track :=
  if s.audioCurrentTime > 3 then ({ s with audioCurrentTime := 0 }, none)
  else if s.contextQueueIndex > 0 then
    let newIdx := s.contextQueueIndex - 1
    let t := jsGetTrack s.contextQueue newIdx
    let s1 := loadAndPlayTrack resolve t { s with contextQueueIndex := newIdx }
    (rebuildCombinedQueue s1, some t)
  else ({ s with audioCurrentTime := 0 }, none)

/-- `playTrack(track)`: single-track playback; clears the temporary
queue and replaces the context with a one-track `online` context. -/
def playTrack (resolve : Resolver) (t : Track) (s : PlayerState) : PlayerState :=
  loadAndPlayTrack resolve t
    { s with temporaryQueue := [],
             playbackContext :=
               { type := some "online", id := none, name := none,
                 tracks := [t], shuffle := false },
             contextQueue := [t], contextQueueIndex := 0,
             queue := [t], queueIndex := 0 }

/-- The argument object of `playContext(context)`. -/
structure ContextArg where
  type : Option String
  id : Option String
  name : Option String
  tracks : List Track
  startIndex : Option Int
  shuffle : Bool
deriving DecidableEq, Repr

/-- `playContext(context)`: clears the temporary queue, adopts the
context descriptor, materializes the context queue (shuffled or not),
then loads the head element and triggers a preload pass when the queue
is non-empty. -/
def playContext (rand : Nat → Nat) (resolve : Resolver) (now : Nat)
    (ctx : ContextArg) (s : PlayerState) : PlayerState :=
  let s1 :=
    { s with temporaryQueue := [],
             playbackContext :=
               { type := ctx.type,
                 id := if jsTruthyStr ctx.id then ctx.id else none,
                 name := if jsTruthyStr ctx.name then ctx.name
                         else getContextDisplayName ctx.type,
                 tracks := ctx.tracks,
                 shuffle := ctx.shuffle } }
  let s2 :=
    if ctx.shuffle then enableShuffle rand ctx.tracks (ctx.startIndex.getD 0) s1
    else { s1 with contextQueue := ctx.tracks,
                   contextQueueIndex := ctx.startIndex.getD 0 }
  let s3 := { s2 with queue := s2.contextQueue, queueIndex := s2.contextQueueIndex }
  if s3.contextQueue.length > 0 then
    preloadUpcomingTracks resolve now
      (loadAndPlayTrack resolve (jsGetTrack s3.contextQueue s3.contextQueueIndex) s3)
  else s3

/-- `clearQueue()`: empties every queue, the cache and the context
descriptor (the transport is not stopped). -/
def clearQueue (s : PlayerState) : PlayerState :=
  { s with queue := [], queueIndex := -1, temporaryQueue := [],
           contextQueue := [], contextQueueIndex := -1, preloadCache := [],
           playbackContext :=
             { type := none, id := none, name := none, tracks := [],
               shuffle := false } }

/-- The playback-state snapshot written by `savePlaybackState()` (which
only runs when a current track exists, so `track` is always present). -/
structure Snapshot where
  track : Track
  currentTime : ℚ
  isPlaying : Bool
  queue : List Track
  queueIndex : Int
  temporaryQueue : List Track
  contextQueue : List Track
  contextQueueIndex : Int
  playbackContext : PlaybackContext
  originalQueue : List Track
  shuffledIndices : List Int
deriving DecidableEq

/-- `loadPlaybackState()` on a successfully parsed snapshot: restores
every queue, stages the source of the saved track (local path directly,
or deferred resolution via `savedRestoreTime`), and ends paused. -/
def loadPlaybackState (snap : Snapshot) (s : PlayerState) : PlayerState :=
  let s1 :=
    { s with queue := snap.queue,
             queueIndex := jsOrZeroInt snap.queueIndex,
             temporaryQueue := snap.temporaryQueue,
             contextQueue := snap.contextQueue,
             contextQueueIndex := jsOrZeroInt snap.contextQueueIndex,
             playbackContext := snap.playbackContext,
             originalQueue := snap.originalQueue,
             shuffledIndices := snap.shuffledIndices,
             currentTrack := some snap.track }
  let s2 :=
    if jsTruthyStr snap.track.file_path && snap.track.downloaded then
      { s1 with audioSrc := snap.track.file_path,
                audioCurrentTime :=
                  if snap.currentTime > 0 then snap.currentTime
                  else s1.audioCurrentTime }
    else { s1 with savedRestoreTime := jsOrZeroRat snap.currentTime }
  { s2 with isPlaying := false }

/-- The composite `i ↦ tracks[i]` mapping (over `Nat` indices) that
`enableShuffle` applies to its shuffled index list. -/
def idxToTrack (tracks : List Track) (i : Nat) : Track :=
  jsGetTrack tracks (i : Int)

/-! ### Concrete fixtures used by witnesses and counterexamples -/

/-- A locally available track with the given id and duration, used for
concrete instances. -/
def mkTrack (id : String) (dur : Nat) : Track :=
  { youtube_id := some id, title := some id, artist := none,
    duration := some dur, downloaded := true, file_path := some ("/m/" ++ id) }

/-- A resolver all of whose lookups fail (never consulted for locally
available tracks). -/
def res0 : Resolver := fun _ => none

/-- A fixed random draw function. -/
def rand0 : Nat → Nat := fun _ => 0

def tA : Track := mkTrack "A" 100
def tB : Track := mkTrack "B" 100
def tC : Track := mkTrack "C" 100
def tX : Track := mkTrack "X" 100
def tY : Track := mkTrack "Y" 100
def tZ : Track := mkTrack "Z" 100

/-- A state with active context queue `[A, B, C]`, current index at `B`,
and an empty temporary queue. -/
def exS : PlayerState :=
  { initState with
      currentTrack := some tB,
      contextQueue := [tA, tB, tC],
      contextQueueIndex := 1,
      playbackContext :=
        { initState.playbackContext with
            type := some "playlist", tracks := [tA, tB, tC] },
      queue := [tA, tB, tC],
      queueIndex := 1 }

def c1s1 : PlayerState := (addToQueue (some tX) true exS).1

def c1s2 : PlayerState := (addToQueue (some tY) false c1s1).1

/-- The state after the three `addToQueue` calls of the C1 scenario on
concrete tracks. -/
def c1s3 : PlayerState := (addToQueue (some tZ) true c1s2).1

def c1p1 : PlayerState × Option Track := playNext res0 0 c1s3
def c1p2 : PlayerState × Option Track := playNext res0 0 c1p1.1
def c1p3 : PlayerState × Option Track := playNext res0 0 c1p2.1
def c1p4 : PlayerState × Option Track := playNext res0 0 c1p3.1

/-! ### C4: the cleanup pass and its duration bound -/

/-- A cache entry fixture of duration 700 s. -/
def exEntry (id : String) (ts : Nat) : Option String × CacheEntry :=
  (some id, { url := "u" ++ id, track := mkTrack id 700, timestamp := ts,
              duration := 700 })

/-- A reachable cache with 3 entries and aggregate duration 2100 s
(e.g. built by successive preload passes of 700 s tracks). -/
def exCache : Cache := [exEntry "a" 1, exEntry "b" 2, exEntry "c" 3]

/-! ### C9: the context-index invariant -/

/-- The context-index well-formedness invariant asserted by claim C9. -/
def ctxInvariant (s : PlayerState) : Prop :=
  (s.contextQueue ≠ [] → 0 ≤ s.contextQueueIndex ∧
    s.contextQueueIndex < (s.contextQueue.length : Int)) ∧
  (s.contextQueueIndex = -1 ↔ s.contextQueue = [])

instance (s : PlayerState) : Decidable (ctxInvariant s) := by
  unfold ctxInvariant
  infer_instance

/-- The same invariant read off a snapshot's stored queue fields. -/
def snapInvariant (snap : Snapshot) : Prop :=
  (snap.contextQueue ≠ [] → 0 ≤ snap.contextQueueIndex ∧
    snap.contextQueueIndex < (snap.contextQueue.length : Int)) ∧
  (snap.contextQueueIndex = -1 ↔ snap.contextQueue = [])

instance (snap : Snapshot) : Decidable (snapInvariant snap) := by
  unfold snapInvariant
  infer_instance

/-- A `playContext` argument with an empty track list. -/
def emptyCtxArg : ContextArg :=
  { type := some "playlist", id := none, name := none, tracks := [],
    startIndex := none, shuffle := false }

/-- A shuffled `playContext` argument `{tracks: [A, B, C], start: 1}`. -/
def shufCtx : ContextArg :=
  { type := some "playlist", id := none, name := none, tracks := [tA, tB, tC],
    startIndex := some 1, shuffle := true }

/-- A snapshot fixture whose stored play flag is `true`. -/
def snap0 : Snapshot :=
  { track := tA, currentTime := 42, isPlaying := true, queue := [tA],
    queueIndex := 0, temporaryQueue := [], contextQueue := [tA],
    contextQueueIndex := 0,
    playbackContext := { type := some "playlist", id := none, name := none,
                         tracks := [tA], shuffle := false },
    originalQueue := [], shuffledIndices := [] }

def c6s1 : PlayerState := (toggleShuffle rand0 exS).1

def c6s2 : PlayerState := (toggleShuffle rand0 c6s1).1

/-- A non-shuffled `playContext` argument `{tracks: [A, B, C], start: 0}`. -/
def ctxABC : ContextArg :=
  { type := some "playlist", id := none, name := none, tracks := [tA, tB, tC],
    startIndex := some 0, shuffle := false }

/-- The reachable state sequence that breaks C5's pinning rule:
`playContext([A, B, C], start 0)`, then `playNext()` (now playing `B`),
then `addToQueue(X)` (whose combined-queue rebuild resets `queueIndex`
to 0). -/
def c5s0 : PlayerState := playContext rand0 res0 0 ctxABC initState

def c5s1 : PlayerState := (playNext res0 0 c5s0).1

def c5s2 : PlayerState := (addToQueue (some tX) false c5s1).1

/-! ### Frame lemmas: which fields each operation leaves untouched -/

@[simp]
theorem loadAndPlayTrack_temporaryQueue (r : Resolver) (t : Track) (s : PlayerState) :
    (loadAndPlayTrack r t s).temporaryQueue = s.temporaryQueue := by
  unfold loadAndPlayTrack
  dsimp only
  repeat' split
  all_goals rfl

@[simp]
theorem loadAndPlayTrack_contextQueue (r : Resolver) (t : Track) (s : PlayerState) :
    (loadAndPlayTrack r t s).contextQueue = s.contextQueue := by
  unfold loadAndPlayTrack
  dsimp only
  repeat' split
  all_goals rfl

@[simp]
theorem loadAndPlayTrack_contextQueueIndex (r : Resolver) (t : Track) (s : PlayerState) :
    (loadAndPlayTrack r t s).contextQueueIndex = s.contextQueueIndex := by
  unfold loadAndPlayTrack
  dsimp only
  repeat' split
  all_goals rfl

@[simp]
theorem loadAndPlayTrack_queue (r : Resolver) (t : Track) (s : PlayerState) :
    (loadAndPlayTrack r t s).queue = s.queue := by
  unfold loadAndPlayTrack
  dsimp only
  repeat' split
  all_goals rfl

@[simp]
theorem loadAndPlayTrack_queueIndex (r : Resolver) (t : Track) (s : PlayerState) :
    (loadAndPlayTrack r t s).queueIndex = s.queueIndex := by
  unfold loadAndPlayTrack
  dsimp only
  repeat' split
  all_goals rfl

@[simp]
theorem loadAndPlayTrack_playbackContext (r : Resolver) (t : Track) (s : PlayerState) :
    (loadAndPlayTrack r t s).playbackContext = s.playbackContext := by
  unfold loadAndPlayTrack
  dsimp only
  repeat' split
  all_goals rfl

@[simp]
theorem loadAndPlayTrack_originalQueue (r : Resolver) (t : Track) (s : PlayerState) :
    (loadAndPlayTrack r t s).originalQueue = s.originalQueue := by
  unfold loadAndPlayTrack
  dsimp only
  repeat' split
  all_goals rfl

@[simp]
theorem preloadUpcomingTracks_temporaryQueue (r : Resolver) (n : Nat) (s : PlayerState) :
    (preloadUpcomingTracks r n s).temporaryQueue = s.temporaryQueue := rfl

@[simp]
theorem preloadUpcomingTracks_contextQueue (r : Resolver) (n : Nat) (s : PlayerState) :
    (preloadUpcomingTracks r n s).contextQueue = s.contextQueue := rfl

@[simp]
theorem preloadUpcomingTracks_contextQueueIndex (r : Resolver) (n : Nat)
    (s : PlayerState) :
    (preloadUpcomingTracks r n s).contextQueueIndex = s.contextQueueIndex := rfl

@[simp]
theorem preloadUpcomingTracks_playbackContext (r : Resolver) (n : Nat)
    (s : PlayerState) :
    (preloadUpcomingTracks r n s).playbackContext = s.playbackContext := rfl

@[simp]
theorem preloadUpcomingTracks_originalQueue (r : Resolver) (n : Nat) (s : PlayerState) :
    (preloadUpcomingTracks r n s).originalQueue = s.originalQueue := rfl

@[simp]
theorem rebuildCombinedQueue_temporaryQueue (s : PlayerState) :
    (rebuildCombinedQueue s).temporaryQueue = s.temporaryQueue := rfl

@[simp]
theorem rebuildCombinedQueue_contextQueue (s : PlayerState) :
    (rebuildCombinedQueue s).contextQueue = s.contextQueue := rfl

@[simp]
theorem rebuildCombinedQueue_contextQueueIndex (s : PlayerState) :
    (rebuildCombinedQueue s).contextQueueIndex = s.contextQueueIndex := rfl

@[simp]
theorem rebuildCombinedQueue_playbackContext (s : PlayerState) :
    (rebuildCombinedQueue s).playbackContext = s.playbackContext := rfl

@[simp]
theorem rebuildCombinedQueue_originalQueue (s : PlayerState) :
    (rebuildCombinedQueue s).originalQueue = s.originalQueue := rfl

@[simp]
theorem rebuildCombinedQueue_audioCurrentTime (s : PlayerState) :
    (rebuildCombinedQueue s).audioCurrentTime = s.audioCurrentTime := rfl

/-! ### `jsGetTrack` on in-range indices -/

theorem jsGetTrack_nonneg (l : List Track) (i : Int) (h0 : 0 ≤ i)
    (hlt : i.toNat < l.length) :
    jsGetTrack l i = l.get ⟨i.toNat, hlt⟩ := by
  simp [jsGetTrack, h0, List.getElem?_eq_getElem hlt]

theorem jsGetTrack_ofNat (l : List Track) (n : Nat) (hlt : n < l.length) :
    jsGetTrack l (n : Int) = l.get ⟨n, hlt⟩ := by
  simpa using jsGetTrack_nonneg l (n : Int) (by omega) (by simpa using hlt)

/-! ### The Fisher-Yates output is a permutation of its input -/

theorem count_listSwap [DecidableEq α] (l : List α) (i j : Nat) (x : α) :
    (listSwap l i j).count x = l.count x := by
  unfold listSwap
  split
  next a b hi hj =>
    have hil : i < l.length := by
      by_contra hc
      rw [List.getElem?_eq_none (by omega)] at hi
      exact Option.noConfusion hi
    have hjl : j < l.length := by
      by_contra hc
      rw [List.getElem?_eq_none (by omega)] at hj
      exact Option.noConfusion hj
    have ha : l[i] = a := by
      rw [List.getElem?_eq_getElem hil] at hi
      exact Option.some.inj hi
    have hb : l[j] = b := by
      rw [List.getElem?_eq_getElem hjl] at hj
      exact Option.some.inj hj
    have hjl' : j < (l.set i b).length := by simpa using hjl
    have hget : (l.set i b)[j] = b := by
      rw [List.getElem_set hjl']
      by_cases hij : i = j
      · simp [hij]
      · simp [hij, hb]
    have hmem_a : a ∈ l := ha ▸ List.getElem_mem hil
    have e1 : ((l.set i b).set j a).count x =
        ((l.set i b).count x - if ((l.set i b)[j] == x) = true then 1 else 0) +
          if (a == x) = true then 1 else 0 :=
      List.count_set a x (l.set i b) j hjl'
    have e2 : (l.set i b).count x =
        (l.count x - if (l[i] == x) = true then 1 else 0) +
          if (b == x) = true then 1 else 0 :=
      List.count_set b x l i hil
    rw [hget] at e1
    rw [ha] at e2
    simp only [beq_iff_eq] at e1 e2
    by_cases hax : a = x
    · subst hax
      have h1 : 1 ≤ l.count a := by
        simpa [List.count_pos_iff] using hmem_a
      by_cases hbx : b = a
      · subst hbx
        simp only [eq_self_iff_true, if_true, if_false, ite_true, ite_false] at e1 e2
        omega
      · simp only [hbx, eq_self_iff_true, if_true, if_false, ite_true, ite_false] at e1 e2
        omega
    · by_cases hbx : b = x
      · subst hbx
        simp only [hax, eq_self_iff_true, if_true, if_false, ite_true, ite_false] at e1 e2
        omega
      · simp only [hax, hbx, eq_self_iff_true, if_true, if_false, ite_true, ite_false] at e1 e2
        omega
  · rfl

theorem listSwap_perm [DecidableEq α] (l : List α) (i j : Nat) :
    (listSwap l i j).Perm l := by
  rw [List.perm_iff_count]
  intro x
  exact count_listSwap l i j x

theorem fyGo_perm [DecidableEq α] (rand : Nat → Nat) :
    ∀ (k : Nat) (l : List α), (fyGo rand k l).Perm l
  | 0, l => List.Perm.refl l
  | k + 1, l =>
    (fyGo_perm rand k _).trans (listSwap_perm l (k + 1) (rand (k + 1) % (k + 2)))

theorem fisherYates_perm [DecidableEq α] (rand : Nat → Nat) (l : List α) :
    (fisherYates rand l).Perm l :=
  fyGo_perm rand (l.length - 1) l

/-! ### The shuffled context queue pins the current track and permutes
the context's tracks -/

theorem map_range_getD (l : List α) (d : α) :
    (List.range l.length).map (fun i => (l[i]?).getD d) = l := by
  induction l with
  | nil => rfl
  | cons a t ih =>
    rw [List.length_cons, List.range_succ_eq_map, List.map_cons, List.map_map]
    simp only [List.getElem?_cons_zero, Option.getD_some, List.cons.injEq, true_and]
    calc (List.range t.length).map
          ((fun i => ((a :: t)[i]?).getD d) ∘ Nat.succ)
        = (List.range t.length).map (fun i => (t[i]?).getD d) := by
          apply List.map_congr_left
          intro i _
          simp [Function.comp]
      _ = t := ih

theorem pin_cons_shuffleIndices_perm (tracks : List Track) (pin : Int)
    (h0 : 0 ≤ pin) (h : pin.toNat < tracks.length) :
    (pin.toNat :: shuffleIndices tracks pin).Perm (List.range tracks.length) := by
  have hpred : ∀ i ∈ List.range tracks.length,
      (decide ((i : Int) ≠ pin)) = (i != pin.toNat) := by
    intro i _
    have hiff : ((i : Int) ≠ pin) ↔ (i ≠ pin.toNat) := by omega
    refine Bool.eq_iff_iff.mpr ?_
    simp only [decide_eq_true_eq, bne_iff_ne]
    exact hiff
  unfold shuffleIndices
  rw [List.filter_congr hpred]
  have hmem : pin.toNat ∈ List.range tracks.length := List.mem_range.mpr h
  have herase := (List.nodup_range tracks.length).erase_eq_filter pin.toNat
  rw [← herase]
  exact (List.perm_cons_erase hmem).symm

theorem jsGetTrack_natCast (l : List Track) (i : Nat) :
    jsGetTrack l (i : Int) = (l[i]?).getD undefinedTrack := by
  simp [jsGetTrack]

theorem enableShuffle_contextQueue (rand : Nat → Nat) (tracks : List Track)
    (pin : Int) (s : PlayerState) :
    (enableShuffle rand tracks pin s).contextQueue =
      jsGetTrack tracks pin ::
        ((fisherYates rand (shuffleIndices tracks pin)).map (idxToTrack tracks)) := by
  unfold enableShuffle idxToTrack
  dsimp only
  rw [List.map_cons, List.map_map]
  rfl

theorem enableShuffle_head (rand : Nat → Nat) (tracks : List Track) (pin : Int)
    (s : PlayerState) (h0 : 0 ≤ pin) (hlt : pin.toNat < tracks.length) :
    (enableShuffle rand tracks pin s).contextQueue.head? =
      some (tracks.get ⟨pin.toNat, hlt⟩) := by
  rw [enableShuffle_contextQueue]
  simp [jsGetTrack_nonneg tracks pin h0 hlt]

theorem enableShuffle_perm (rand : Nat → Nat) (tracks : List Track) (pin : Int)
    (s : PlayerState) (h0 : 0 ≤ pin) (hlt : pin.toNat < tracks.length) :
    (enableShuffle rand tracks pin s).contextQueue.Perm tracks := by
  rw [enableShuffle_contextQueue]
  have hpin : ((pin.toNat : Nat) : Int) = pin := Int.toNat_of_nonneg h0
  have hfy : (fisherYates rand (shuffleIndices tracks pin)).Perm
      (shuffleIndices tracks pin) := fisherYates_perm _ _
  have hheads : jsGetTrack tracks pin = idxToTrack tracks pin.toNat := by
    unfold idxToTrack
    rw [hpin]
  have h1 : (jsGetTrack tracks pin ::
        ((fisherYates rand (shuffleIndices tracks pin)).map (idxToTrack tracks))).Perm
      ((pin.toNat :: shuffleIndices tracks pin).map (idxToTrack tracks)) := by
    rw [List.map_cons, hheads]
    exact (hfy.map _).cons _
  have h2 : ((pin.toNat :: shuffleIndices tracks pin).map (idxToTrack tracks)).Perm
      ((List.range tracks.length).map (idxToTrack tracks)) :=
    (pin_cons_shuffleIndices_perm tracks pin h0 hlt).map _
  have h3 : (List.range tracks.length).map (idxToTrack tracks) = tracks := by
    calc (List.range tracks.length).map (idxToTrack tracks)
        = (List.range tracks.length).map (fun i => (tracks[i]?).getD undefinedTrack) := by
          apply List.map_congr_left
          intro i _
          exact jsGetTrack_natCast tracks i
      _ = tracks := map_range_getD tracks undefinedTrack
  have h4 : ((List.range tracks.length).map (idxToTrack tracks)).Perm tracks := by
    rw [h3]
  exact (h1.trans h2).trans h4

/-! ### `jsFindIndex` behaves like `Array.prototype.findIndex` -/

theorem jsFindIndex_spec (p : α → Bool) (l : List α) :
    (jsFindIndex p l = -1 ∧ ∀ x ∈ l, p x = false) ∨
    (0 ≤ jsFindIndex p l ∧ ∃ h : (jsFindIndex p l).toNat < l.length,
      p (l.get ⟨(jsFindIndex p l).toNat, h⟩) = true) := by
  induction l with
  | nil => exact Or.inl ⟨rfl, by simp⟩
  | cons a t ih =>
    by_cases hpa : p a = true
    · right
      have hfi : jsFindIndex p (a :: t) = 0 := by simp [jsFindIndex, hpa]
      rw [hfi]
      exact ⟨le_refl 0, by simp, by simpa using hpa⟩
    · have hpa' : p a = false := by simpa using hpa
      rcases ih with ⟨hneg, hall⟩ | ⟨hge, hlt, hp⟩
      · left
        refine ⟨by simp [jsFindIndex, hpa', hneg], ?_⟩
        intro x hx
        rcases List.mem_cons.mp hx with rfl | hx
        · exact hpa'
        · exact hall x hx
      · right
        have hne : jsFindIndex p t ≠ -1 := by omega
        have hfi : jsFindIndex p (a :: t) = jsFindIndex p t + 1 := by
          simp [jsFindIndex, hpa', hne]
        rw [hfi]
        have htn : (jsFindIndex p t + 1).toNat = (jsFindIndex p t).toNat + 1 := by
          omega
        have hh : (jsFindIndex p t + 1).toNat < (a :: t).length := by
          simp only [List.length_cons, htn]
          omega
        refine ⟨by omega, hh, ?_⟩
        have hget : (a :: t).get ⟨(jsFindIndex p t + 1).toNat, hh⟩ =
            t.get ⟨(jsFindIndex p t).toNat, hlt⟩ := by
          simp only [List.get_eq_getElem, htn, List.getElem_cons_succ]
        rw [hget]
        exact hp

/-! ### Frame and characterization lemmas for the shuffle operations -/

@[simp]
theorem enableShuffle_temporaryQueue (rand : Nat → Nat) (tracks : List Track)
    (pin : Int) (s : PlayerState) :
    (enableShuffle rand tracks pin s).temporaryQueue = s.temporaryQueue := rfl

@[simp]
theorem enableShuffle_currentTrack (rand : Nat → Nat) (tracks : List Track)
    (pin : Int) (s : PlayerState) :
    (enableShuffle rand tracks pin s).currentTrack = s.currentTrack := rfl

@[simp]
theorem enableShuffle_contextQueueIndex (rand : Nat → Nat) (tracks : List Track)
    (pin : Int) (s : PlayerState) :
    (enableShuffle rand tracks pin s).contextQueueIndex = 0 := rfl

@[simp]
theorem enableShuffle_originalQueue (rand : Nat → Nat) (tracks : List Track)
    (pin : Int) (s : PlayerState) :
    (enableShuffle rand tracks pin s).originalQueue = tracks := rfl

theorem enableShuffle_playbackContext (rand : Nat → Nat) (tracks : List Track)
    (pin : Int) (s : PlayerState) :
    (enableShuffle rand tracks pin s).playbackContext =
      { s.playbackContext with shuffle := true } := rfl

theorem enableShuffle_contextQueue_ne_nil (rand : Nat → Nat) (tracks : List Track)
    (pin : Int) (s : PlayerState) :
    (enableShuffle rand tracks pin s).contextQueue ≠ [] := by
  rw [enableShuffle_contextQueue]
  exact List.cons_ne_nil _ _

@[simp]
theorem disableShuffle_temporaryQueue (s : PlayerState) :
    (disableShuffle s).temporaryQueue = s.temporaryQueue := by
  unfold disableShuffle
  repeat' split
  all_goals rfl

@[simp]
theorem disableShuffle_currentTrack (s : PlayerState) :
    (disableShuffle s).currentTrack = s.currentTrack := by
  unfold disableShuffle
  repeat' split
  all_goals rfl

theorem disableShuffle_of_guard (s : PlayerState) (cur : Track)
    (hcur : s.currentTrack = some cur) (hne : s.originalQueue.length > 0) :
    (disableShuffle s).contextQueue = s.originalQueue ∧
    (disableShuffle s).contextQueueIndex =
      (if 0 ≤ jsFindIndex (fun t => t.youtube_id == cur.youtube_id) s.originalQueue
       then jsFindIndex (fun t => t.youtube_id == cur.youtube_id) s.originalQueue
       else 0) ∧
    (disableShuffle s).playbackContext =
      { s.playbackContext with shuffle := false } := by
  unfold disableShuffle
  rw [hcur]
  dsimp only
  rw [if_pos hne]
  exact ⟨rfl, rfl, rfl⟩

theorem toggleShuffle_temporaryQueue (rand : Nat → Nat) (s : PlayerState) :
    (toggleShuffle rand s).1.temporaryQueue = s.temporaryQueue := by
  unfold toggleShuffle
  dsimp only
  repeat' split
  all_goals simp

/-! ### Branch characterizations of `playNext` and `playPrevious` -/

theorem playNext_eq_of_tempCons (r : Resolver) (now : Nat) (s : PlayerState)
    (t : Track) (rest : List Track) (h : s.temporaryQueue = t :: rest) :
    playNext r now s =
      (preloadUpcomingTracks r now (loadAndPlayTrack r t
        (rebuildCombinedQueue { s with temporaryQueue := rest })), some t) := by
  obtain ⟨ct, srt, tq, cq, cqi, q, qi, pc, ip, pbc, si, oq, asrc, act⟩ := s
  dsimp only at h
  subst h
  rfl

theorem playNext_eq_of_ctxAdvance (r : Resolver) (now : Nat) (s : PlayerState)
    (hT : s.temporaryQueue = [])
    (hI : s.contextQueueIndex < (s.contextQueue.length : Int) - 1) :
    playNext r now s =
      (preloadUpcomingTracks r now (loadAndPlayTrack r
          (jsGetTrack s.contextQueue (s.contextQueueIndex + 1))
          { s with contextQueueIndex := s.contextQueueIndex + 1,
                   queueIndex := s.queueIndex + 1 }),
        some (jsGetTrack s.contextQueue (s.contextQueueIndex + 1))) := by
  obtain ⟨ct, srt, tq, cq, cqi, q, qi, pc, ip, pbc, si, oq, asrc, act⟩ := s
  dsimp only at hT hI ⊢
  subst hT
  unfold playNext
  dsimp only
  rw [if_pos hI]

theorem playNext_eq_of_exhausted (r : Resolver) (now : Nat) (s : PlayerState)
    (hT : s.temporaryQueue = [])
    (hI : ¬ s.contextQueueIndex < (s.contextQueue.length : Int) - 1) :
    playNext r now s = (s, none) := by
  obtain ⟨ct, srt, tq, cq, cqi, q, qi, pc, ip, pbc, si, oq, asrc, act⟩ := s
  dsimp only at hT hI ⊢
  subst hT
  unfold playNext
  dsimp only
  rw [if_neg hI]

theorem playPrevious_eq_of_elapsed (r : Resolver) (s : PlayerState)
    (h : s.audioCurrentTime > 3) :
    playPrevious r s = ({ s with audioCurrentTime := 0 }, none) := by
  unfold playPrevious
  rw [if_pos h]

theorem playPrevious_eq_of_back (r : Resolver) (s : PlayerState)
    (h1 : ¬ s.audioCurrentTime > 3) (h2 : s.contextQueueIndex > 0) :
    playPrevious r s =
      (rebuildCombinedQueue (loadAndPlayTrack r
          (jsGetTrack s.contextQueue (s.contextQueueIndex - 1))
          { s with contextQueueIndex := s.contextQueueIndex - 1 }),
        some (jsGetTrack s.contextQueue (s.contextQueueIndex - 1))) := by
  unfold playPrevious
  rw [if_neg h1, if_pos h2]

theorem playPrevious_eq_of_atStart (r : Resolver) (s : PlayerState)
    (h1 : ¬ s.audioCurrentTime > 3) (h2 : ¬ s.contextQueueIndex > 0) :
    playPrevious r s = ({ s with audioCurrentTime := 0 }, none) := by
  unfold playPrevious
  rw [if_neg h1, if_neg h2]

/-! ### Claims -/

/-- C2: for every engine state, `playNext()` obeys the tie-break rule:
a non-empty temporary queue is popped first (context index unchanged);
otherwise the context index advances when `context_index <
len(context_queue) - 1` and the element at the new index is played;
otherwise the call is a no-op that changes no state and plays nothing. -/
theorem claim_C2 (r : Resolver) (now : Nat) (s : PlayerState) :
    (∀ t rest, s.temporaryQueue = t :: rest →
      (playNext r now s).2 = some t ∧
      (playNext r now s).1.temporaryQueue = rest ∧
      (playNext r now s).1.contextQueueIndex = s.contextQueueIndex ∧
      (playNext r now s).1.contextQueue = s.contextQueue) ∧
    (s.temporaryQueue = [] →
      s.contextQueueIndex < (s.contextQueue.length : Int) - 1 →
      (playNext r now s).1.contextQueueIndex = s.contextQueueIndex + 1 ∧
      (playNext r now s).2 = some (jsGetTrack s.contextQueue (s.contextQueueIndex + 1)) ∧
      (playNext r now s).1.contextQueue = s.contextQueue ∧
      (playNext r now s).1.temporaryQueue = []) ∧
    (s.temporaryQueue = [] →
      ¬ s.contextQueueIndex < (s.contextQueue.length : Int) - 1 →
      playNext r now s = (s, none)) := by
  refine ⟨?_, ?_, ?_⟩
  · intro t rest h
    rw [playNext_eq_of_tempCons r now s t rest h]
    simp
  · intro hT hI
    rw [playNext_eq_of_ctxAdvance r now s hT hI]
    simp [hT]
  · intro hT hI
    exact playNext_eq_of_exhausted r now s hT hI

/-- Witness for C2 at concrete states exercising all three branches. -/
theorem claim_C2_witness :
    (playNext res0 0 { exS with temporaryQueue := [tX] }).2 = some tX ∧
    (playNext res0 0 exS).1.contextQueueIndex = 2 ∧
    playNext res0 0 { exS with contextQueueIndex := 2 } =
      ({ exS with contextQueueIndex := 2 }, none) := by
  refine ⟨?_, ?_, ?_⟩
  · exact ((claim_C2 res0 0 { exS with temporaryQueue := [tX] }).1 tX [] rfl).1
  · have h := ((claim_C2 res0 0 exS).2.1 rfl (by decide)).1
    rw [h]
    rfl
  · exact (claim_C2 res0 0 { exS with contextQueueIndex := 2 }).2.2 rfl (by decide)

/-- C7: an identity-less track (null track or missing id) is rejected
synchronously by `addToQueue` with `InvalidTrackError` and no state
change. -/
theorem claim_C7 (pn : Bool) (s : PlayerState) :
    addToQueue none pn s = (s, some QueueError.invalidTrack) ∧
    (∀ t : Track, t.youtube_id = none →
      addToQueue (some t) pn s = (s, some QueueError.invalidTrack)) := by
  constructor
  · rfl
  · intro t ht
    unfold addToQueue
    dsimp only
    rw [ht]
    rfl

/-- Witness for C7: a track literal without an id is rejected and the
state is returned unchanged. -/
theorem claim_C7_witness :
    addToQueue (some undefinedTrack) true exS = (exS, some QueueError.invalidTrack) :=
  (claim_C7 true exS).2 undefinedTrack rfl

/-- C8: `restore()` (i.e. `loadPlaybackState`) always leaves the engine
paused, whatever play/pause flag the snapshot stored. -/
theorem claim_C8 (snap : Snapshot) (s : PlayerState) :
    (loadPlaybackState snap s).isPlaying = false := rfl

/-- C10 (implicit): `toggleShuffle()` never touches the temporary queue,
and with shuffle inactive and an empty context track list it changes no
state and returns `false`. -/
theorem claim_C10 (rand : Nat → Nat) (s : PlayerState) :
    (toggleShuffle rand s).1.temporaryQueue = s.temporaryQueue ∧
    (s.playbackContext.shuffle = false → s.playbackContext.tracks = [] →
      toggleShuffle rand s = (s, false)) := by
  refine ⟨toggleShuffle_temporaryQueue rand s, ?_⟩
  intro hsh htr
  unfold toggleShuffle
  rw [hsh, htr]
  simp [hsh]

/-- Witness for C10: on the initial state (shuffle off, empty context),
`toggleShuffle` is the identity and returns `false`. -/
theorem claim_C10_witness :
    toggleShuffle rand0 initState = (initState, false) :=
  (claim_C10 rand0 initState).2 rfl rfl

theorem addToQueue_pn_facts (t : Track) (hT : jsTruthyStr t.youtube_id = true)
    (s : PlayerState) :
    (addToQueue (some t) true s).1.temporaryQueue = t :: s.temporaryQueue ∧
    (addToQueue (some t) true s).1.contextQueue = s.contextQueue ∧
    (addToQueue (some t) true s).1.contextQueueIndex = s.contextQueueIndex ∧
    (addToQueue (some t) true s).1.currentTrack = s.currentTrack := by
  unfold addToQueue
  dsimp only
  rw [hT]
  exact ⟨rfl, rfl, rfl, rfl⟩

theorem addToQueue_append_facts (t : Track) (hT : jsTruthyStr t.youtube_id = true)
    (s : PlayerState) :
    (addToQueue (some t) false s).1.temporaryQueue = s.temporaryQueue ++ [t] ∧
    (addToQueue (some t) false s).1.contextQueue = s.contextQueue ∧
    (addToQueue (some t) false s).1.contextQueueIndex = s.contextQueueIndex ∧
    (addToQueue (some t) false s).1.currentTrack = s.currentTrack := by
  unfold addToQueue
  dsimp only
  rw [hT]
  exact ⟨rfl, rfl, rfl, rfl⟩

/-- C1: acceptance scenario — from context `[A, B, C]` at `B` with an
empty temporary queue, `addToQueue(X, play_next)`, `addToQueue(Y)`,
`addToQueue(Z, play_next)` leave the temporary queue `[Z, X, Y]`, and
four `playNext()` calls then produce `Z, X, Y, C`. -/
theorem claim_C1 (r : Resolver) (now : Nat) (A B C X Y Z : Track) (s : PlayerState)
    (hX : jsTruthyStr X.youtube_id = true) (hY : jsTruthyStr Y.youtube_id = true)
    (hZ : jsTruthyStr Z.youtube_id = true)
    (hq : s.contextQueue = [A, B, C]) (hi : s.contextQueueIndex = 1)
    (ht : s.temporaryQueue = [])
    (s1 s2 s3 : PlayerState)
    (h1 : s1 = (addToQueue (some X) true s).1)
    (h2 : s2 = (addToQueue (some Y) false s1).1)
    (h3 : s3 = (addToQueue (some Z) true s2).1)
    (p1 p2 p3 p4 : PlayerState × Option Track)
    (e1 : p1 = playNext r now s3) (e2 : p2 = playNext r now p1.1)
    (e3 : p3 = playNext r now p2.1) (e4 : p4 = playNext r now p3.1) :
    s3.temporaryQueue = [Z, X, Y] ∧
    p1.2 = some Z ∧ p2.2 = some X ∧ p3.2 = some Y ∧ p4.2 = some C := by
  subst h1 h2 h3 e1 e2 e3 e4
  obtain ⟨a1T, a1Q, a1I, -⟩ := addToQueue_pn_facts X hX s
  obtain ⟨a2T, a2Q, a2I, -⟩ := addToQueue_append_facts Y hY (addToQueue (some X) true s).1
  obtain ⟨a3T, a3Q, a3I, -⟩ :=
    addToQueue_pn_facts Z hZ (addToQueue (some Y) false (addToQueue (some X) true s).1).1
  have ht3 : (addToQueue (some Z) true (addToQueue (some Y) false (addToQueue (some X) true s).1).1).1.temporaryQueue = [Z, X, Y] := by
    rw [a3T, a2T, a1T, ht]
    rfl
  have hq3 : (addToQueue (some Z) true (addToQueue (some Y) false (addToQueue (some X) true s).1).1).1.contextQueue = [A, B, C] := by
    rw [a3Q, a2Q, a1Q, hq]
  have hi3 : (addToQueue (some Z) true (addToQueue (some Y) false (addToQueue (some X) true s).1).1).1.contextQueueIndex = 1 := by
    rw [a3I, a2I, a1I, hi]
  have P1 := playNext_eq_of_tempCons r now (addToQueue (some Z) true (addToQueue (some Y) false (addToQueue (some X) true s).1).1).1 Z [X, Y] ht3
  have p1T : (playNext r now (addToQueue (some Z) true (addToQueue (some Y) false (addToQueue (some X) true s).1).1).1).1.temporaryQueue = [X, Y] := by rw [P1]; simp
  have p1Q : (playNext r now (addToQueue (some Z) true (addToQueue (some Y) false (addToQueue (some X) true s).1).1).1).1.contextQueue = [A, B, C] := by rw [P1]; simp [hq3]
  have p1I : (playNext r now (addToQueue (some Z) true (addToQueue (some Y) false (addToQueue (some X) true s).1).1).1).1.contextQueueIndex = 1 := by rw [P1]; simp [hi3]
  have P2 := playNext_eq_of_tempCons r now (playNext r now (addToQueue (some Z) true (addToQueue (some Y) false (addToQueue (some X) true s).1).1).1).1 X [Y] p1T
  have p2T : (playNext r now (playNext r now (addToQueue (some Z) true (addToQueue (some Y) false (addToQueue (some X) true s).1).1).1).1).1.temporaryQueue = [Y] := by rw [P2]; simp
  have p2Q : (playNext r now (playNext r now (addToQueue (some Z) true (addToQueue (some Y) false (addToQueue (some X) true s).1).1).1).1).1.contextQueue = [A, B, C] := by rw [P2]; simp [p1Q]
  have p2I : (playNext r now (playNext r now (addToQueue (some Z) true (addToQueue (some Y) false (addToQueue (some X) true s).1).1).1).1).1.contextQueueIndex = 1 := by rw [P2]; simp [p1I]
  have P3 := playNext_eq_of_tempCons r now (playNext r now (playNext r now (addToQueue (some Z) true (addToQueue (some Y) false (addToQueue (some X) true s).1).1).1).1).1 Y [] p2T
  have p3T : (playNext r now (playNext r now (playNext r now (addToQueue (some Z) true (addToQueue (some Y) false (addToQueue (some X) true s).1).1).1).1).1).1.temporaryQueue = [] := by rw [P3]; simp
  have p3Q : (playNext r now (playNext r now (playNext r now (addToQueue (some Z) true (addToQueue (some Y) false (addToQueue (some X) true s).1).1).1).1).1).1.contextQueue = [A, B, C] := by rw [P3]; simp [p2Q]
  have p3I : (playNext r now (playNext r now (playNext r now (addToQueue (some Z) true (addToQueue (some Y) false (addToQueue (some X) true s).1).1).1).1).1).1.contextQueueIndex = 1 := by rw [P3]; simp [p2I]
  have hlt : (playNext r now (playNext r now (playNext r now (addToQueue (some Z) true (addToQueue (some Y) false (addToQueue (some X) true s).1).1).1).1).1).1.contextQueueIndex < (((playNext r now (playNext r now (playNext r now (addToQueue (some Z) true (addToQueue (some Y) false (addToQueue (some X) true s).1).1).1).1).1).1.contextQueue.length : Int)) - 1 := by
    rw [p3I, p3Q]
    norm_num
  have P4 := playNext_eq_of_ctxAdvance r now (playNext r now (playNext r now (playNext r now (addToQueue (some Z) true (addToQueue (some Y) false (addToQueue (some X) true s).1).1).1).1).1).1 p3T hlt
  refine ⟨ht3, by rw [P1], by rw [P2], by rw [P3], ?_⟩
  rw [P4, p3Q, p3I]
  simp [jsGetTrack]

/-- Witness for C1 on concrete tracks. -/
theorem claim_C1_witness :
    c1s3.temporaryQueue = [tZ, tX, tY] ∧
    c1p1.2 = some tZ ∧ c1p2.2 = some tX ∧ c1p3.2 = some tY ∧ c1p4.2 = some tC :=
  claim_C1 res0 0 tA tB tC tX tY tZ exS (by decide) (by decide) (by decide)
    rfl rfl rfl c1s1 c1s2 c1s3 rfl rfl rfl c1p1 c1p2 c1p3 c1p4 rfl rfl rfl rfl

/-- C3 counterexample: with context `[A, B, C]` at index 1 and elapsed
position 10 s, `playPrevious()` does NOT move to index 0 and play `A`
(as the claim's scenario asserts); the code restarts the current track,
leaving the index at 1 and playing nothing. -/
theorem claim_C3_counterexample :
    (playPrevious res0 { exS with audioCurrentTime := 10 }).1.contextQueueIndex = 1 ∧
    (playPrevious res0 { exS with audioCurrentTime := 10 }).2 = none ∧
    ¬ ((playPrevious res0 { exS with audioCurrentTime := 10 }).1.contextQueueIndex = 0 ∧
       (playPrevious res0 { exS with audioCurrentTime := 10 }).2 = some tA) := by
  have h := playPrevious_eq_of_elapsed res0 { exS with audioCurrentTime := 10 }
    (by norm_num)
  rw [h]
  refine ⟨rfl, rfl, ?_⟩
  rintro ⟨h0, -⟩
  exact absurd h0 (by norm_num [exS, initState])

/-- C3 (amended): `playPrevious()` never touches the temporary queue and
never increases the context index; elapsed > 3 s restarts the current
track with no queue movement, else with `context_index > 0` it
decrements the index and plays that element, else it restarts; in the
`[A, B, C]`-at-index-1 scenario, elapsed 10 s restarts the current track
(index stays 1, position 0), and a further call at elapsed 1 s moves to
index 0 and plays `A`. -/
theorem claim_C3 (r : Resolver) (s : PlayerState) :
    (playPrevious r s).1.temporaryQueue = s.temporaryQueue ∧
    (playPrevious r s).1.contextQueueIndex ≤ s.contextQueueIndex ∧
    (s.audioCurrentTime > 3 →
      playPrevious r s = ({ s with audioCurrentTime := 0 }, none)) ∧
    (s.audioCurrentTime ≤ 3 → s.contextQueueIndex > 0 →
      (playPrevious r s).1.contextQueueIndex = s.contextQueueIndex - 1 ∧
      (playPrevious r s).2 = some (jsGetTrack s.contextQueue (s.contextQueueIndex - 1)) ∧
      (playPrevious r s).1.contextQueue = s.contextQueue) ∧
    (s.audioCurrentTime ≤ 3 → ¬ s.contextQueueIndex > 0 →
      playPrevious r s = ({ s with audioCurrentTime := 0 }, none)) ∧
    (∀ A B C : Track, s.contextQueue = [A, B, C] → s.contextQueueIndex = 1 →
      s.audioCurrentTime = 10 →
      (playPrevious r s).1.contextQueueIndex = 1 ∧
      (playPrevious r s).2 = none ∧
      (playPrevious r s).1.audioCurrentTime = 0 ∧
      (playPrevious r { (playPrevious r s).1 with
          audioCurrentTime := 1 }).1.contextQueueIndex = 0 ∧
      (playPrevious r { (playPrevious r s).1 with
          audioCurrentTime := 1 }).2 = some A) := by
  have hframe : ∀ s' : PlayerState,
      (playPrevious r s').1.temporaryQueue = s'.temporaryQueue ∧
      (playPrevious r s').1.contextQueueIndex ≤ s'.contextQueueIndex := by
    intro s'
    by_cases hel : s'.audioCurrentTime > 3
    · rw [playPrevious_eq_of_elapsed r s' hel]
      exact ⟨rfl, le_refl _⟩
    · by_cases hidx : s'.contextQueueIndex > 0
      · rw [playPrevious_eq_of_back r s' hel hidx]
        exact ⟨by simp, by simp⟩
      · rw [playPrevious_eq_of_atStart r s' hel hidx]
        exact ⟨rfl, le_refl _⟩
  refine ⟨(hframe s).1, (hframe s).2, ?_, ?_, ?_, ?_⟩
  · intro hel
    exact playPrevious_eq_of_elapsed r s hel
  · intro hel hidx
    rw [playPrevious_eq_of_back r s (not_lt.mpr hel) hidx]
    exact ⟨by simp, rfl, by simp⟩
  · intro hel hidx
    exact playPrevious_eq_of_atStart r s (not_lt.mpr hel) hidx
  · intro A B C hcq hci hel
    have h1 := playPrevious_eq_of_elapsed r s (by rw [hel]; norm_num)
    have hEq : ({ (playPrevious r s).1 with audioCurrentTime := 1 } : PlayerState) =
        { s with audioCurrentTime := 1 } := by
      rw [h1]
    have h2 := playPrevious_eq_of_back r { s with audioCurrentTime := 1 }
      (by show ¬ (1 : ℚ) > 3; norm_num)
      (by show s.contextQueueIndex > 0; rw [hci]; norm_num)
    refine ⟨by rw [h1]; exact hci, by rw [h1], by rw [h1], ?_, ?_⟩
    · rw [hEq, h2]
      simp only [rebuildCombinedQueue_contextQueueIndex,
        loadAndPlayTrack_contextQueueIndex]
      show s.contextQueueIndex - 1 = 0
      rw [hci]
      decide
    · rw [hEq, h2]
      show some (jsGetTrack s.contextQueue (s.contextQueueIndex - 1)) = some A
      rw [hci, hcq]
      norm_num [jsGetTrack]

/-- Witness for C3 (amended) on concrete tracks. -/
theorem claim_C3_witness :
    (playPrevious res0 { exS with audioCurrentTime := 10 }).1.contextQueueIndex = 1 ∧
    (playPrevious res0 { exS with audioCurrentTime := 10 }).2 = none ∧
    (playPrevious res0 { exS with audioCurrentTime := 10 }).1.audioCurrentTime = 0 ∧
    (playPrevious res0 { (playPrevious res0 { exS with audioCurrentTime := 10 }).1 with
        audioCurrentTime := 1 }).1.contextQueueIndex = 0 ∧
    (playPrevious res0 { (playPrevious res0 { exS with audioCurrentTime := 10 }).1 with
        audioCurrentTime := 1 }).2 = some tA :=
  (claim_C3 res0 { exS with audioCurrentTime := 10 }).2.2.2.2.2 tA tB tC rfl rfl rfl

/-- C4 (code bug): a cleanup pass leaves a 3-entry cache whose aggregate
duration is 2100 s (> 1800 s) completely untouched, because eviction
only runs when the entry count exceeds 5 — the duration bound is NOT
enforced independently, contradicting the claim and the code's own
"max 5 or 30 mins" comment. -/
theorem claim_C4 :
    cleanupPreloadCache exCache = exCache ∧
    cacheLength exCache = 3 ∧
    totalCachedDuration exCache = 2100 ∧
    (2100 : Int) > (maxPreloadDuration : Int) := by
  refine ⟨?_, rfl, ?_, ?_⟩ <;> decide

/-- C9 counterexample: `playContext` with an empty track list leaves the
context queue empty but sets the context index to 0, so
`context_index == -1 iff the queue is empty` fails after a public
operation. -/
theorem claim_C9_counterexample :
    (playContext rand0 res0 0 emptyCtxArg initState).contextQueue = [] ∧
    (playContext rand0 res0 0 emptyCtxArg initState).contextQueueIndex = 0 ∧
    ¬ ctxInvariant (playContext rand0 res0 0 emptyCtxArg initState) := by
  refine ⟨?_, ?_, ?_⟩ <;> decide

theorem jsOrZeroInt_eq (x : Int) : jsOrZeroInt x = x := by
  unfold jsOrZeroInt
  split
  · omega
  · rfl

theorem ctxInvariant_of_eq (s s' : PlayerState)
    (hq : s'.contextQueue = s.contextQueue)
    (hi : s'.contextQueueIndex = s.contextQueueIndex)
    (h : ctxInvariant s) : ctxInvariant s' := by
  unfold ctxInvariant at *
  rw [hq, hi]
  exact h

theorem ctxInvariant_mk (s : PlayerState)
    (hne : s.contextQueue ≠ [])
    (h0 : 0 ≤ s.contextQueueIndex)
    (hlt : s.contextQueueIndex < (s.contextQueue.length : Int)) :
    ctxInvariant s := by
  unfold ctxInvariant
  refine ⟨fun _ => ⟨h0, hlt⟩, ?_, fun hc => absurd hc hne⟩
  intro hc
  omega

theorem length_pos_of_ne_nil (l : List Track) (h : l ≠ []) :
    0 < (l.length : Int) := by
  cases l with
  | nil => exact absurd rfl h
  | cons a t => simp

theorem addToQueue_ctx_frame (tr : Option Track) (pn : Bool) (s : PlayerState) :
    (addToQueue tr pn s).1.contextQueue = s.contextQueue ∧
    (addToQueue tr pn s).1.contextQueueIndex = s.contextQueueIndex := by
  unfold addToQueue
  cases tr with
  | none => exact ⟨rfl, rfl⟩
  | some t =>
    dsimp only
    repeat' split
    all_goals exact ⟨rfl, rfl⟩

theorem loadPlaybackState_ctx (snap : Snapshot) (s : PlayerState) :
    (loadPlaybackState snap s).contextQueue = snap.contextQueue ∧
    (loadPlaybackState snap s).contextQueueIndex = jsOrZeroInt snap.contextQueueIndex := by
  unfold loadPlaybackState
  dsimp only
  split
  · exact ⟨rfl, rfl⟩
  · exact ⟨rfl, rfl⟩

theorem playContext_ctxFields (rand : Nat → Nat) (r : Resolver) (now : Nat)
    (ctx : ContextArg) (s : PlayerState) :
    ((playContext rand r now ctx s).contextQueue =
      (if ctx.shuffle then
        jsGetTrack ctx.tracks (ctx.startIndex.getD 0) ::
          ((fisherYates rand (shuffleIndices ctx.tracks (ctx.startIndex.getD 0))).map
            (idxToTrack ctx.tracks))
       else ctx.tracks)) ∧
    ((playContext rand r now ctx s).contextQueueIndex =
      (if ctx.shuffle then 0 else ctx.startIndex.getD 0)) := by
  unfold playContext
  dsimp only
  constructor
  · rw [apply_ite PlayerState.contextQueue]
    simp only [preloadUpcomingTracks_contextQueue, loadAndPlayTrack_contextQueue,
      ite_self]
    rw [apply_ite PlayerState.contextQueue]
    by_cases hsh : ctx.shuffle
    · simp [hsh, enableShuffle_contextQueue]
    · simp [hsh]
  · rw [apply_ite PlayerState.contextQueueIndex]
    simp only [preloadUpcomingTracks_contextQueueIndex,
      loadAndPlayTrack_contextQueueIndex, ite_self]
    rw [apply_ite PlayerState.contextQueueIndex]
    by_cases hsh : ctx.shuffle
    · simp [hsh]
    · simp [hsh]

theorem disableShuffle_inv (s : PlayerState) (h : ctxInvariant s) :
    ctxInvariant (disableShuffle s) := by
  cases hcur : s.currentTrack with
  | none =>
    unfold disableShuffle
    rw [hcur]
    exact h
  | some cur =>
    by_cases hne : s.originalQueue.length > 0
    · obtain ⟨hq, hi, -⟩ := disableShuffle_of_guard s cur hcur hne
      have hfi := jsFindIndex_spec (fun t => t.youtube_id == cur.youtube_id)
        s.originalQueue
      apply ctxInvariant_mk
      · rw [hq]
        intro hc
        rw [hc] at hne
        simp at hne
      · rw [hi]
        rcases hfi with ⟨hneg, -⟩ | ⟨hge, -, -⟩
        · rw [hneg]
          norm_num
        · split <;> omega
      · rw [hi, hq]
        rcases hfi with ⟨hneg, -⟩ | ⟨hge, hlt, -⟩
        · rw [hneg]
          norm_num
          omega
        · split
          · omega
          · omega
    · unfold disableShuffle
      rw [hcur]
      dsimp only
      rw [if_neg hne]
      exact h

/-- C9 (amended): the context-index invariant is preserved by every
public operation, and (re)established by `playContext` whenever its
track list is non-empty and its start index is in range, and by
`restore()` whenever the snapshot's stored fields satisfy it; the
original claim fails only for `playContext` calls with an empty track
list or out-of-range start index (see the counterexample). -/
theorem claim_C9 (rand : Nat → Nat) (r : Resolver) (now : Nat) (t : Track)
    (tr : Option Track) (pn : Bool) (s : PlayerState) (hs : ctxInvariant s) :
    ctxInvariant (playTrack r t s) ∧
    ctxInvariant ((addToQueue tr pn s).1) ∧
    ctxInvariant ((playNext r now s).1) ∧
    ctxInvariant ((playPrevious r s).1) ∧
    ctxInvariant ((toggleShuffle rand s).1) ∧
    ctxInvariant (clearQueue s) ∧
    (∀ ctx : ContextArg, ctx.tracks ≠ [] → 0 ≤ ctx.startIndex.getD 0 →
      ctx.startIndex.getD 0 < (ctx.tracks.length : Int) →
      ctxInvariant (playContext rand r now ctx s)) ∧
    (∀ snap : Snapshot, snapInvariant snap →
      ctxInvariant (loadPlaybackState snap s)) := by
  obtain ⟨hbnd, hiff⟩ := hs
  refine ⟨?_, ?_, ?_, ?_, ?_, ?_, ?_, ?_⟩
  · apply ctxInvariant_mk
    · simp [playTrack]
    · simp [playTrack]
    · simp [playTrack]
  · obtain ⟨hq, hi⟩ := addToQueue_ctx_frame tr pn s
    exact ctxInvariant_of_eq s _ hq hi ⟨hbnd, hiff⟩
  · cases htq : s.temporaryQueue with
    | cons t' rest =>
      rw [playNext_eq_of_tempCons r now s t' rest htq]
      exact ctxInvariant_of_eq s _ (by simp) (by simp) ⟨hbnd, hiff⟩
    | nil =>
      by_cases hI : s.contextQueueIndex < (s.contextQueue.length : Int) - 1
      · rw [playNext_eq_of_ctxAdvance r now s htq hI]
        have hne : s.contextQueue ≠ [] := by
          intro hc
          rw [hc] at hI
          have := hiff.mpr hc
          simp at hI
          omega
        obtain ⟨h0, hlt⟩ := hbnd hne
        apply ctxInvariant_mk <;> simp [hne]
        · omega
        · omega
      · rw [playNext_eq_of_exhausted r now s htq hI]
        exact ⟨hbnd, hiff⟩
  · by_cases hel : s.audioCurrentTime > 3
    · rw [playPrevious_eq_of_elapsed r s hel]
      exact ctxInvariant_of_eq s _ rfl rfl ⟨hbnd, hiff⟩
    · by_cases hidx : s.contextQueueIndex > 0
      · rw [playPrevious_eq_of_back r s hel hidx]
        have hne : s.contextQueue ≠ [] := by
          intro hc
          have := hiff.mpr hc
          omega
        obtain ⟨h0, hlt⟩ := hbnd hne
        apply ctxInvariant_mk <;> simp [hne]
        · omega
        · omega
      · rw [playPrevious_eq_of_atStart r s hel hidx]
        exact ctxInvariant_of_eq s _ rfl rfl ⟨hbnd, hiff⟩
  · unfold toggleShuffle
    dsimp only
    split
    · exact disableShuffle_inv s ⟨hbnd, hiff⟩
    · split
      · apply ctxInvariant_mk
        · exact enableShuffle_contextQueue_ne_nil rand s.playbackContext.tracks
            s.queueIndex s
        · simp
        · rw [enableShuffle_contextQueue]
          simp only [enableShuffle_contextQueueIndex]
          simp
      · exact ⟨hbnd, hiff⟩
  · unfold ctxInvariant clearQueue
    dsimp only
    exact ⟨fun hc => absurd rfl hc, by simp⟩
  · intro ctx hne h0 hlt
    obtain ⟨hq, hi⟩ := playContext_ctxFields rand r now ctx s
    apply ctxInvariant_mk
    · rw [hq]
      split
      · exact List.cons_ne_nil _ _
      · exact hne
    · rw [hi]
      split
      · exact le_refl 0
      · exact h0
    · rw [hq, hi]
      split
      · simp
      · exact hlt
  · intro snap hsnap
    obtain ⟨hq, hi⟩ := loadPlaybackState_ctx snap s
    obtain ⟨hb, hf⟩ := hsnap
    rw [jsOrZeroInt_eq] at hi
    exact ⟨by rw [hq, hi]; exact hb, by rw [hq, hi]; exact hf⟩

/-- Witness for C9 (amended) at a concrete invariant-satisfying state. -/
theorem claim_C9_witness :
    ctxInvariant (playTrack res0 tA exS) ∧
    ctxInvariant ((addToQueue (some tX) true exS).1) ∧
    ctxInvariant ((playNext res0 0 exS).1) ∧
    ctxInvariant ((playPrevious res0 exS).1) ∧
    ctxInvariant ((toggleShuffle rand0 exS).1) ∧
    ctxInvariant (clearQueue exS) ∧
    ctxInvariant (playContext rand0 res0 0 shufCtx exS) ∧
    ctxInvariant (loadPlaybackState snap0 exS) := by
  have h := claim_C9 rand0 res0 0 tA (some tX) true exS (by decide)
  exact ⟨h.1, h.2.1, h.2.2.1, h.2.2.2.1, h.2.2.2.2.1, h.2.2.2.2.2.1,
    h.2.2.2.2.2.2.1 shufCtx (by decide) (by decide) (by decide),
    h.2.2.2.2.2.2.2 snap0 (by decide)⟩

/-! ### C5 and C6: shuffle round-trip behaviour -/

theorem toggleShuffle_on_eq (rand : Nat → Nat) (s : PlayerState)
    (hsh : s.playbackContext.shuffle = false)
    (hlen : s.playbackContext.tracks.length > 0) :
    toggleShuffle rand s =
      (enableShuffle rand s.playbackContext.tracks s.queueIndex s, true) := by
  unfold toggleShuffle
  dsimp only
  rw [hsh]
  rw [if_neg (by simp), if_pos hlen]
  rfl

theorem toggleShuffle_off_eq (rand : Nat → Nat) (s : PlayerState)
    (hsh : s.playbackContext.shuffle = true) :
    toggleShuffle rand s =
      (disableShuffle s, (disableShuffle s).playbackContext.shuffle) := by
  unfold toggleShuffle
  dsimp only
  rw [hsh]
  rw [if_pos rfl]

/-- C5 (code bug): `toggleShuffle` pins `tracks[this.queueIndex]`, but
`rebuildCombinedQueue` resets `queueIndex` to 0, so after the reachable
public sequence `playContext([A, B, C], start 0)` then `playNext()`
(current track `B`, context index 1) then `addToQueue(X)`
(`queueIndex` now 0), turning shuffle on pins `tracks[0] = A` at
index 0 while the current track is `B` — the pre-shuffle current track
is NOT at index 0, although the result is still a permutation of the
context's track list. -/
theorem claim_C5 :
    c5s2.currentTrack = some tB ∧
    c5s2.contextQueueIndex = 1 ∧
    c5s2.queueIndex = 0 ∧
    (toggleShuffle rand0 c5s2).1.playbackContext.shuffle = true ∧
    (toggleShuffle rand0 c5s2).1.contextQueue.head? = some tA ∧
    (toggleShuffle rand0 c5s2).1.contextQueue.head? ≠ c5s2.currentTrack ∧
    (toggleShuffle rand0 c5s2).1.contextQueue.Perm [tA, tB, tC] := by
  refine ⟨?_, ?_, ?_, ?_, ?_, ?_, ?_⟩ <;> decide

/-- C6: on a non-shuffled context whose track list contains the current
track (by id), toggling shuffle on and then off restores the original
context-queue order and points the context index at an element with the
current track's id. -/
theorem claim_C6 (rand1 rand2 : Nat → Nat) (s : PlayerState) (t : Track)
    (hsh : s.playbackContext.shuffle = false)
    (hne : s.playbackContext.tracks ≠ [])
    (hcur : s.currentTrack = some t)
    (hmem : ∃ tr ∈ s.playbackContext.tracks, tr.youtube_id = t.youtube_id)
    (hctx : s.contextQueue = s.playbackContext.tracks)
    (s2 : PlayerState)
    (hs2 : s2 = (toggleShuffle rand2 (toggleShuffle rand1 s).1).1) :
    s2.contextQueue = s.contextQueue ∧
    s2.playbackContext.shuffle = false ∧
    0 ≤ s2.contextQueueIndex ∧
    ∃ h : s2.contextQueueIndex.toNat < s.contextQueue.length,
      (s.contextQueue.get ⟨s2.contextQueueIndex.toNat, h⟩).youtube_id =
        t.youtube_id := by
  subst hs2
  have hlen : s.playbackContext.tracks.length > 0 := List.length_pos.mpr hne
  rw [toggleShuffle_on_eq rand1 s hsh hlen]
  dsimp only
  have h1sh : (enableShuffle rand1 s.playbackContext.tracks s.queueIndex
      s).playbackContext.shuffle = true := rfl
  have h1cur : (enableShuffle rand1 s.playbackContext.tracks s.queueIndex
      s).currentTrack = some t := by
    rw [enableShuffle_currentTrack]
    exact hcur
  have h1oq : (enableShuffle rand1 s.playbackContext.tracks s.queueIndex
      s).originalQueue = s.playbackContext.tracks := rfl
  rw [toggleShuffle_off_eq rand2 _ h1sh]
  dsimp only
  have hoqlen : (enableShuffle rand1 s.playbackContext.tracks s.queueIndex
      s).originalQueue.length > 0 := by
    rw [h1oq]
    exact hlen
  obtain ⟨hq, hi, hpbc⟩ := disableShuffle_of_guard _ t h1cur hoqlen
  rcases jsFindIndex_spec (fun tr => tr.youtube_id == t.youtube_id)
      (enableShuffle rand1 s.playbackContext.tracks s.queueIndex
        s).originalQueue with ⟨hneg, hall⟩ | ⟨hge, hlt, hp⟩
  · exfalso
    obtain ⟨tr, htr, hid⟩ := hmem
    have hfalse := hall tr (by rw [h1oq]; exact htr)
    rw [hid] at hfalse
    simp at hfalse
  · refine ⟨?_, ?_, ?_, ?_⟩
    · rw [hq, h1oq, hctx]
    · rw [hpbc]
    · rw [hi, if_pos hge]
      exact hge
    · rw [hi, if_pos hge, hctx]
      have hlt' : (jsFindIndex (fun tr => tr.youtube_id == t.youtube_id)
          (enableShuffle rand1 s.playbackContext.tracks s.queueIndex
            s).originalQueue).toNat < s.playbackContext.tracks.length := by
        rw [← h1oq]
        exact hlt
      refine ⟨hlt', ?_⟩
      have hp' := hp
      simp only [beq_iff_eq] at hp'
      exact hp'

/-- Witness for C6: toggling twice on the concrete `[A, B, C]` context
restores the original order with the index back on `B`. -/
theorem claim_C6_witness :
    c6s2.contextQueue = exS.contextQueue ∧
    c6s2.playbackContext.shuffle = false ∧
    0 ≤ c6s2.contextQueueIndex ∧
    ∃ h : c6s2.contextQueueIndex.toNat < exS.contextQueue.length,
      (exS.contextQueue.get ⟨c6s2.contextQueueIndex.toNat, h⟩).youtube_id =
        tB.youtube_id :=
  claim_C6 rand0 rand0 exS tB rfl (by decide) rfl ⟨tB, by decide, rfl⟩ rfl c6s2 rfl

end WaveX

